import Mathlib

set_option maxHeartbeats 1000000
set_option maxRecDepth 8000

/-!
# Verification of the Duplex stream core (`src/node/_stream/duplex.ts`)

A shallow embedding of the Duplex stream engine.  The `Duplex` class of
`duplex.ts` is translated method by method into pure Lean functions over an
explicit state record.  Mutation becomes state threading, `queueMicrotask`
becomes an explicit FIFO task queue (`tasks`) drained by `drain`, event
emission (`this.emit(...)`) appends to an `events` log, and user-supplied
completion callbacks are identified by numeric ids whose invocations are
recorded (with their error argument) in `cbLog`.

Helper functions that `duplex.ts` imports from sibling modules that are not
part of the sources under verification (`readable_internal.ts`,
`writable_internal.ts`, `duplex_internal.ts`, `readable.ts`, `writable.ts`)
are modelled from the specification document; each such definition carries a
doc comment starting with `Modelled from the spec:`.
-/

namespace NodeStream

/-- Error kinds surfaced by the engine.  `streamAlreadyFinished` stands for
`ERR_STREAM_ALREADY_FINISHED`, `streamDestroyed` for `ERR_STREAM_DESTROYED`,
`invalidState` for the `InvalidStateError`-kind misuse condition, and
`userError n` for an arbitrary collaborator-supplied error object. -/
inductive Err where
  | streamAlreadyFinished
  | streamDestroyed
  | invalidState
  | userError (n : Nat)
deriving DecidableEq, Repr

/-- A chunk of streamed data: a list of bytes (in object mode a chunk is an
opaque unit, still represented as a byte list). -/
abbrev Chunk := List Nat

/-- Observable notifications emitted by the stream (the `this.emit(...)`
calls of the source). -/
inductive Ev where
  | closeEv
  | errorEv (e : Err)
  | endEv
  | dataEv (c : Chunk)
  | readableEv
  | finishEv
deriving DecidableEq, Repr

/-- Event names a listener can be attached to via `on`. -/
inductive EvName where
  | data
  | readable
  | close
  | errorN
  | endN
  | other
deriving DecidableEq, Repr

/-- The readable-side state (`ReadableState` of `readable.ts`), restricted to
the fields `duplex.ts` reads or writes.  `flowing` is the tri-state
`true/false/null`; `awaitDrainWriters` abstracts the writer set as a count. -/
structure ReadableState where
  objectMode : Bool
  highWaterMark : Nat
  buffer : List Chunk
  length : Nat
  flowing : Option Bool
  ended : Bool
  endEmitted : Bool
  reading : Bool
  sync : Bool
  needReadable : Bool
  emittedReadable : Bool
  readableListening : Bool
  destroyed : Bool
  errored : Option Err
  closed : Bool
  closeEmitted : Bool
  errorEmitted : Bool
  emitClose : Bool
  constructed : Bool
  dataEmitted : Bool
  readable : Bool
  multiAwaitDrain : Bool
  awaitDrainWriters : Nat
deriving DecidableEq, Repr

/-- The writable-side state (`WritableState` of `writable.ts`), restricted to
the fields `duplex.ts` reads or writes.  `onFinished` holds the ids of the
`end()` completion callbacks queued under the `kOnFinished` symbol;
`pendingWrites` is the queue of buffered (corked or backpressured) chunks. -/
structure WritableState where
  objectMode : Bool
  highWaterMark : Nat
  pendingWrites : List Chunk
  length : Nat
  corked : Nat
  writing : Bool
  ending : Bool
  ended : Bool
  finished : Bool
  destroyed : Bool
  errored : Option Err
  closed : Bool
  closeEmitted : Bool
  errorEmitted : Bool
  emitClose : Bool
  writable : Bool
  constructed : Bool
  onFinished : List Nat
deriving DecidableEq, Repr

/-- Pending microtasks (`queueMicrotask` thunks), represented as data and
interpreted by `runTask`. -/
inductive Task where
  | destroyFinishT (err : Option Err)
  | callCb (id : Nat) (err : Option Err)
  | finishT
  | endReadableNT
  | endWritableNT
  | emitReadableT
  | nReadingNextTickT
deriving DecidableEq, Repr

/-- The whole Duplex stream: the two inner states, the `allowHalfOpen` flag,
listener counts for `data`/`readable`, the emitted-event log, the
user-callback invocation log, the pending microtask queue, and the log of
batches flushed to the underlying sink. -/
structure Duplex where
  r : ReadableState
  w : WritableState
  allowHalfOpen : Bool
  dataListeners : Nat
  readableListeners : Nat
  events : List Ev
  cbLog : List (Nat × Option Err)
  tasks : List Task
  flushedBatches : List (List Chunk)
deriving DecidableEq, Repr

/-- Constructor options of `DuplexOptions` that influence the modelled state
(collaborator hook options such as `destroy`, `final`, `read`, `write`,
`writev` are functions and are represented by the engine defaults). -/
structure DuplexOptions where
  allowHalfOpen : Option Bool := none
  readable : Option Bool := none
  writable : Option Bool := none
  emitClose : Option Bool := none
  objectMode : Option Bool := none
  readableObjectMode : Option Bool := none
  writableObjectMode : Option Bool := none
  highWaterMark : Option Nat := none
  readableHighWaterMark : Option Nat := none
  writableHighWaterMark : Option Nat := none
deriving DecidableEq, Repr

/-- `this.emit(ev, ...)`: append a notification to the event log. -/
def emit (d : Duplex) (e : Ev) : Duplex :=
  { d with events := d.events ++ [e] }

/-- The `writable` getter of `duplex.ts` (lines 717-721). -/
def writableGetter (d : Duplex) : Bool :=
  d.w.writable && !d.w.destroyed && d.w.errored == none && !d.w.ending && !d.w.ended

/-- The `readable` getter of `duplex.ts` (lines 547-554). -/
def readableGetter (d : Duplex) : Bool :=
  d.r.readable && !d.r.destroyed && !d.r.errorEmitted && !d.r.endEmitted

/-- Modelled from the spec: the initial `ReadableState` built by the missing
`readable.ts` constructor — empty buffer, not flowing (`null`), no terminal
flag set, the high-water mark taken from the options (default 16384 bytes,
16 objects in object mode), terminal close notification enabled unless
`emitClose` is `false`. -/
def ReadableState.new (o : DuplexOptions) : ReadableState :=
  let objectMode := (o.objectMode.orElse fun _ => o.readableObjectMode).getD false
  let hwm := (o.highWaterMark.orElse fun _ => o.readableHighWaterMark).getD
    (if objectMode then 16 else 16384)
  { objectMode := objectMode
    highWaterMark := hwm
    buffer := []
    length := 0
    flowing := none
    ended := false
    endEmitted := false
    reading := false
    sync := false
    needReadable := false
    emittedReadable := false
    readableListening := false
    destroyed := false
    errored := none
    closed := false
    closeEmitted := false
    errorEmitted := false
    emitClose := o.emitClose.getD true
    constructed := true
    dataEmitted := false
    readable := true
    multiAwaitDrain := false
    awaitDrainWriters := 0 }

/-- Modelled from the spec: the initial `WritableState` built by the missing
`writable.ts` constructor — no pending writes, cork depth 0, not
ending/ended/finished/destroyed, no recorded error, terminal close
notification enabled unless `emitClose` is `false`. -/
def WritableState.new (o : DuplexOptions) : WritableState :=
  let objectMode := (o.objectMode.orElse fun _ => o.writableObjectMode).getD false
  let hwm := (o.highWaterMark.orElse fun _ => o.writableHighWaterMark).getD
    (if objectMode then 16 else 16384)
  { objectMode := objectMode
    highWaterMark := hwm
    pendingWrites := []
    length := 0
    corked := 0
    writing := false
    ending := false
    ended := false
    finished := false
    destroyed := false
    errored := none
    closed := false
    closeEmitted := false
    errorEmitted := false
    emitClose := o.emitClose.getD true
    writable := true
    constructed := true
    onFinished := [] }

/-- The `Duplex` constructor (`duplex.ts` lines 89-180): build the two inner
states, then apply the `allowHalfOpen`, `readable: false` and
`writable: false` option tweaks exactly as the source does. -/
def Duplex.new (o : DuplexOptions) : Duplex :=
  let d : Duplex :=
    { r := ReadableState.new o
      w := WritableState.new o
      allowHalfOpen := true
      dataListeners := 0
      readableListeners := 0
      events := []
      cbLog := []
      tasks := []
      flushedBatches := [] }
  let d := if o.allowHalfOpen = some false then { d with allowHalfOpen := false } else d
  let d := if o.readable = some false then
      { d with r := { d.r with readable := false, ended := true, endEmitted := true } }
    else d
  let d := if o.writable = some false then
      { d with w := { d.w with writable := false, ending := true, ended := true, finished := true } }
    else d
  d

/-- `Duplex.destroy` (`duplex.ts` lines 208-288) with the default `_destroy`
teardown (`duplex.ts` lines 190-195: `callback(error)`, synchronous, same
error) inlined: the early-return when either side is already destroyed, the
error recording on both sides, the destroyed/closed flag transitions, the
synchronous callback invocation, and the queued microtask that emits the
deduplicated "error" and the terminal "close" notifications. -/
def destroy (d : Duplex) (err : Option Err) (cb : Option Nat) : Duplex :=
  if d.w.destroyed || d.r.destroyed then
    match cb with
    | some id => { d with cbLog := d.cbLog ++ [(id, none)] }
    | none => d
  else
    let d := match err with
      | some e =>
        { d with
          w := if d.w.errored = none then { d.w with errored := some e } else d.w
          r := if d.r.errored = none then { d.r with errored := some e } else d.r }
      | none => d
    let d := { d with
      w := { d.w with destroyed := true }
      r := { d.r with destroyed := true } }
    let err2 := err
    let d := match err2 with
      | some e =>
        { d with
          w := if d.w.errored = none then { d.w with errored := some e } else d.w
          r := if d.r.errored = none then { d.r with errored := some e } else d.r }
      | none => d
    let d := { d with
      w := { d.w with closed := true }
      r := { d.r with closed := true } }
    let d := match cb with
      | some id => { d with cbLog := d.cbLog ++ [(id, err2)] }
      | none => d
    { d with tasks := d.tasks ++ [Task.destroyFinishT err2] }

/-- Modelled from the spec: the high-water mark "grows to the next
power-of-two-like step to admit the request in one pull" — the least power of
two that is at least the requested size (the missing
`readable_internal.ts#computeNewHighWaterMark`). -/
def computeNewHighWaterMark (n : Nat) : Nat :=
  2 ^ Nat.clog 2 n

/-- Modelled from the spec: how much of a `read(n)` request the buffer can
satisfy (the missing `readable_internal.ts#howMuchToRead`).  A zero request
or an exhausted ended stream yields nothing; object mode delivers one object
at a time; a fully coverable request is served whole; a request exceeding the
buffer yields everything remaining once the stream has ended, and nothing
before that ("emits no value synchronously when the buffer cannot yet satisfy
the request").  `none` stands for an unbounded request (`read()` with no
argument): it takes the next chunk when flowing, else everything buffered. -/
def howMuchToRead (n? : Option Nat) (s : ReadableState) : Nat :=
  match n? with
  | some n =>
    if n = 0 ∨ (s.length = 0 ∧ s.ended) then 0
    else if s.objectMode then 1
    else if n ≤ s.length then n
    else if s.ended then s.length
    else 0
  | none =>
    if s.length = 0 ∧ s.ended then 0
    else if s.objectMode then 1
    else if s.flowing = some true ∧ s.length > 0 then (s.buffer.headD []).length
    else s.length

/-- Modelled from the spec: consume `n` units from the buffer queue (the
missing `readable_internal.ts#fromList`).  Returns `none` on an empty
buffer; in object mode dequeues one chunk; in byte mode takes the first `n`
bytes of the buffered data, leaving the remainder queued (total declared
length is maintained by the caller). -/
def fromList (n : Nat) (s : ReadableState) : Option Chunk × ReadableState :=
  if s.buffer = [] then (none, s)
  else if s.objectMode then (some (s.buffer.headD []), { s with buffer := s.buffer.tail })
  else
    let flat := s.buffer.flatten
    (some (flat.take n),
     { s with buffer := if flat.length ≤ n then [] else [flat.drop n] })

/-- Modelled from the spec: the level-triggered "readable" notification (the
missing `readable_internal.ts#emitReadable`) — at most one notification is
pending at a time, guarded by `emittedReadable`, and it is delivered
asynchronously on the microtask queue. -/
def emitReadable (d : Duplex) : Duplex :=
  if !d.r.emittedReadable then
    { d with
      r := { d.r with emittedReadable := true }
      tasks := d.tasks ++ [Task.emitReadableT] }
  else d

/-- Modelled from the spec: terminal end-of-read sequencing (the missing
`duplex_internal.ts#endDuplex`) — marks the read side ended and queues the
single "end" notification, which in turn triggers the automatic write-side
`end()` when `allowHalfOpen` is `false` (see `runTask`). -/
def endDuplex (d : Duplex) : Duplex :=
  if !d.r.endEmitted then
    { d with
      r := { d.r with ended := true }
      tasks := d.tasks ++ [Task.endReadableNT] }
  else d

/-- Modelled from the spec: the default producer fill callback (the engine's
`_read` when the collaborator provides none) — a fill "must eventually call
push zero or more times"; the default pushes nothing. -/
def fillNoop (s : ReadableState) : ReadableState := s

/-- The `doRead` producer-fill decision of `Duplex.read` (`duplex.ts`
lines 400-428): whether to invoke the producer fill, with its re-entrancy
guards (`reading`), the `sync` bracket around the fill, and the
recomputation of the served amount when the fill completed synchronously.
The default fill is `fillNoop`. -/
def readDoReadStep (state : ReadableState) (nOrig : Option Nat) (n : Nat) :
    ReadableState × Nat :=
  let doRead := state.needReadable
  let doRead := if state.length = 0 ∨ state.length - n < state.highWaterMark then
      true
    else doRead
  let blocked := state.ended || state.reading || state.destroyed ||
    state.errored.isSome || !state.constructed
  let s1 :=
    if blocked then state
    else if doRead then
      let sa := { state with
        reading := true
        sync := true
        needReadable := if state.length = 0 then true else state.needReadable }
      let sb := fillNoop sa
      { sb with sync := false }
    else state
  let n1 :=
    if blocked then n
    else if doRead then (if s1.reading then n else howMuchToRead nOrig s1)
    else n
  (s1, n1)

/-- The consumption tail of `Duplex.read` (`duplex.ts` lines 430-465): the
buffer consumption via `fromList`, the `length`/`needReadable` bookkeeping,
the terminal `endDuplex` call when the buffer empties on an ended stream,
and the synchronous "data" emission for a non-null pull. -/
def readConsume (d0 : Duplex) (n? : Option Nat) (s1 : ReadableState) (n1 : Nat) :
    Duplex × Option Chunk :=
  let retS2 := if n1 > 0 then fromList n1 s1 else (none, s1)
  let ret := retS2.1
  let s2 := retS2.2
  let s3 := match ret with
    | none => { s2 with needReadable := decide (s2.length ≤ s2.highWaterMark) }
    | some _ => { s2 with length := s2.length - n1, awaitDrainWriters := 0 }
  let n2 := match ret with
    | none => 0
    | some _ => n1
  let d1 := { d0 with r := s3 }
  let d2 :=
    if s3.length = 0 then
      let da := if !s3.ended then { d1 with r := { d1.r with needReadable := true } }
        else d1
      let mismatch : Bool := match n? with
        | none => true
        | some m => m != n2
      if mismatch ∧ s3.ended then endDuplex da else da
    else d1
  let d3 := match ret with
    | some c =>
      if !d2.r.errorEmitted && !d2.r.closeEmitted then
        emit { d2 with r := { d2.r with dataEmitted := true } } (Ev.dataEv c)
      else d2
    | none => d2
  (d3, ret)

/-- `Duplex.read` after the high-water-mark growth and `emittedReadable`
steps (`duplex.ts` lines 374-465): the zero-length read shortcut, the
`howMuchToRead` computation, the end-of-data `null` returns, then the
producer-fill decision and the consumption tail. -/
def readAfterHwm (d0 : Duplex) (n? : Option Nat) : Duplex × Option Chunk :=
  let state := d0.r
  if n? = some 0 ∧ state.needReadable ∧
      ((if state.highWaterMark ≠ 0 then state.length ≥ state.highWaterMark
        else state.length > 0) ∨ state.ended) then
    if state.length = 0 ∧ state.ended then (endDuplex d0, none)
    else (emitReadable d0, none)
  else
    let n := howMuchToRead n? state
    if n = 0 ∧ state.ended then
      (if state.length = 0 then endDuplex d0 else d0, none)
    else
      let sn := readDoReadStep state n? n
      readConsume d0 n? sn.1 sn.2

/-- The high-water-mark growth step at the top of `Duplex.read`
(`duplex.ts` lines 366-368): a request above the current mark raises it. -/
def readHwmStep (s : ReadableState) (n? : Option Nat) : ReadableState :=
  match n? with
  | some n =>
    if n > s.highWaterMark then { s with highWaterMark := computeNewHighWaterMark n }
    else s
  | none => s

/-- `Duplex.read` (`duplex.ts` lines 356-465).  `none` models `read()`
with no argument (`n = NaN` in the source: every numeric comparison against
it is false and it is distinct from every number). -/
def read (d : Duplex) (n? : Option Nat) : Duplex × Option Chunk :=
  let s := readHwmStep d.r n?
  let s := if n? ≠ some 0 then { s with emittedReadable := false } else s
  readAfterHwm { d with r := s } n?

/-- Modelled from the spec: the corked batch flush (the missing
`writable_internal.ts#clearBuffer`) — the buffered writes are coalesced into
a single batched flush to the underlying sink when the cork counter returns
to zero. -/
def clearBuffer (d : Duplex) : Duplex :=
  if d.w.pendingWrites = [] then d
  else
    { d with
      w := { d.w with pendingWrites := [], length := 0 }
      flushedBatches := d.flushedBatches ++ [d.w.pendingWrites] }

/-- Modelled from the spec: `cork()` — "nested counter" (the missing
`Writable.prototype.cork`). -/
def cork (d : Duplex) : Duplex :=
  { d with w := { d.w with corked := d.w.corked + 1 } }

/-- Modelled from the spec: `uncork()` — decrement the nested counter; when
it returns to zero (and no write is in flight) the coalesced writes are
flushed as a single batch (the missing `Writable.prototype.uncork`). -/
def uncork (d : Duplex) : Duplex :=
  if d.w.corked > 0 then
    let d := { d with w := { d.w with corked := d.w.corked - 1 } }
    if d.w.corked = 0 ∧ !d.w.writing then clearBuffer d else d
  else d

/-- Modelled from the spec: `write(chunk)` (the missing
`Writable.prototype.write`) — a write after `destroy()` fails with the
destroyed condition, a write after `end()` fails with the finished
condition, otherwise the chunk and its length are queued (flushed at once
when not corked and no write is in flight) and the returned boolean signals
backpressure once the buffered length reaches the high-water mark. -/
def write (d : Duplex) (c : Chunk) : Duplex × Bool :=
  if d.w.destroyed then
    ({ d with w := if d.w.errored = none then { d.w with errored := some Err.streamDestroyed } else d.w }, false)
  else if d.w.ending then
    ({ d with w := if d.w.errored = none then { d.w with errored := some Err.streamAlreadyFinished } else d.w }, false)
  else
    let len := if d.w.objectMode then 1 else c.length
    let d := { d with w := { d.w with
      pendingWrites := d.w.pendingWrites ++ [c]
      length := d.w.length + len } }
    let d := if d.w.corked = 0 ∧ !d.w.writing then clearBuffer d else d
    (d, decide (d.w.length < d.w.highWaterMark))

/-- Modelled from the spec: the finish condition (the missing
`writable_internal.ts#needFinish`) — the write side "transitions to
`finished` once all pending writes' completions have fired", i.e. it is
ending, nothing is buffered or in flight, no error is recorded and it has
not finished yet. -/
def needFinish (w : WritableState) : Bool :=
  w.ending && w.length == 0 && w.pendingWrites == [] && w.errored == none &&
    !w.finished && !w.writing

/-- Modelled from the spec: the missing
`writable_internal.ts#finishMaybe` — when the finish condition holds, queue
the asynchronous transition to `finished` (delivered by `runTask`, which
invokes the queued `end()` completion callbacks with no error and emits the
single "finish" notification). -/
def finishMaybe (d : Duplex) : Duplex :=
  if needFinish d.w then { d with tasks := d.tasks ++ [Task.finishT] } else d

/-- The terminal branch logic of `Duplex.end` (`duplex.ts` lines 675-698):
a first `end()` marks `ending`/`ended` and starts `finishMaybe`, a repeated
`end()` after `finished` schedules the "already finished" error to its
callback, an `end()` while destroyed (but already ending or errored, and not
finished) schedules the "destroyed" error, and an error-free callback is
queued under `kOnFinished` until the finish transition. -/
def endAfterCork (d : Duplex) (cb : Option Nat) : Duplex :=
  let state := d.w
  let errD : Option Err × Duplex :=
    if state.errored = none ∧ !state.ending then
      let d := { d with w := { d.w with ending := true } }
      let d := finishMaybe d
      (none, { d with w := { d.w with ended := true } })
    else if state.finished then (some Err.streamAlreadyFinished, d)
    else if state.destroyed then (some Err.streamDestroyed, d)
    else (none, d)
  let err := errD.1
  let d := errD.2
  match cb with
  | some id =>
    if err ≠ none ∨ d.w.finished then
      { d with tasks := d.tasks ++ [Task.callCb id err] }
    else
      { d with w := { d.w with onFinished := d.w.onFinished ++ [id] } }
  | none => d

/-- `Duplex.end` (`duplex.ts` lines 640-698): the optional final chunk is
written, a positive cork depth is forced to exactly 1 and uncorked once, and
the terminal branch logic is `endAfterCork` above. -/
def endStream (d : Duplex) (chunk : Option Chunk) (cb : Option Nat) : Duplex :=
  let d := match chunk with
    | some c => (write d c).1
    | none => d
  let d := if d.w.corked > 0 then uncork { d with w := { d.w with corked := 1 } } else d
  endAfterCork d cb

/-- Modelled from the spec: `setFlowing(true)` — switch to push-delivery
(flowing) mode (the missing `Readable.prototype.resume`). -/
def resume (d : Duplex) : Duplex :=
  if d.r.flowing ≠ some true then { d with r := { d.r with flowing := some true } } else d

/-- `Duplex.on` (`duplex.ts` lines 305-338): register the listener, then the
side effects — a "data" listener recomputes `readableListening` and resumes
the stream unless flowing is exactly `false`; a first "readable" listener
(before "end" was emitted) switches to paused pull mode (`flowing := false`,
`needReadable := true`) and arranges a "readable" delivery (immediately if
data is buffered, else via a queued `read(0)` probe). -/
def onEvent (d : Duplex) (ev : EvName) : Duplex :=
  let d := if ev = EvName.data then { d with dataListeners := d.dataListeners + 1 }
    else if ev = EvName.readable then { d with readableListeners := d.readableListeners + 1 }
    else d
  if ev = EvName.data then
    let d := { d with r := { d.r with readableListening := decide (d.readableListeners > 0) } }
    if d.r.flowing ≠ some false then resume d else d
  else if ev = EvName.readable then
    if !d.r.endEmitted ∧ !d.r.readableListening then
      let d := { d with r := { d.r with
        readableListening := true
        needReadable := true
        flowing := some false
        emittedReadable := false } }
      if d.r.length > 0 then emitReadable d
      else if !d.r.reading then { d with tasks := d.tasks ++ [Task.nReadingNextTickT] }
      else d
    else d
  else d

/-- Modelled from the spec: `push(chunk | EOF)` via the missing
`duplex_internal.ts#readableAddChunk` — EOF sets `ended`; a chunk pushed
after `ended` or `destroyed` records the invalid-state condition; otherwise
the chunk is appended to the buffer queue (object-mode chunks count as
length 1) and the returned boolean invites more data while the buffered
length stays below the high-water mark. -/
def push (d : Duplex) (c : Option Chunk) : Duplex × Bool :=
  match c with
  | none =>
    ({ d with r := { d.r with ended := true } }, false)
  | some ch =>
    if d.r.ended || d.r.destroyed then
      ({ d with r := if d.r.errored = none then { d.r with errored := some Err.invalidState } else d.r }, false)
    else
      let len := if d.r.objectMode then 1 else ch.length
      let d := { d with r := { d.r with
        buffer := d.r.buffer ++ [ch]
        length := d.r.length + len } }
      (d, decide (d.r.length < d.r.highWaterMark))

/-- Interpreter for the queued microtasks.  `destroyFinishT` is the
continuation queued by `destroy` (`duplex.ts` lines 255-284): the
deduplicated "error" emission guarded by the two `errorEmitted` flags,
`closeEmitted`, and the terminal "close" guarded by `emitClose`.  `finishT`
is the modelled finish transition, `callCb` a scheduled user callback,
`endReadableNT`/`endWritableNT` the modelled end-of-read sequencing with the
half-open coupling, `emitReadableT` the deferred "readable" notification and
`nReadingNextTickT` the deferred `read(0)` probe. -/
def runTask (d : Duplex) (t : Task) : Duplex :=
  match t with
  | Task.destroyFinishT err =>
    let d := match err with
      | some e =>
        if !d.w.errorEmitted && !d.r.errorEmitted then
          emit { d with
            w := { d.w with errorEmitted := true }
            r := { d.r with errorEmitted := true } } (Ev.errorEv e)
        else d
      | none => d
    let d := { d with r := { d.r with closeEmitted := true } }
    if d.w.emitClose || d.r.emitClose then emit d Ev.closeEv else d
  | Task.callCb id err => { d with cbLog := d.cbLog ++ [(id, err)] }
  | Task.finishT =>
    if needFinish d.w then
      let d := { d with
        cbLog := d.cbLog ++ d.w.onFinished.map (fun id => (id, (none : Option Err)))
        w := { d.w with finished := true, onFinished := [] } }
      emit d Ev.finishEv
    else d
  | Task.endReadableNT =>
    if !d.r.endEmitted ∧ d.r.length = 0 then
      let d := emit { d with r := { d.r with endEmitted := true } } Ev.endEv
      if !d.allowHalfOpen && writableGetter d then
        { d with tasks := d.tasks ++ [Task.endWritableNT] }
      else d
    else d
  | Task.endWritableNT =>
    if writableGetter d then endStream d none none else d
  | Task.emitReadableT => emit d Ev.readableEv
  | Task.nReadingNextTickT => (read d (some 0)).1

/-- Drain the microtask queue FIFO, with fuel: each step removes the front
task and runs it (tasks it queues go to the back, as `queueMicrotask`
does). -/
def drain : Nat → Duplex → Duplex
  | 0, d => d
  | k + 1, d =>
    match d.tasks with
    | [] => d
    | t :: ts => drain k (runTask { d with tasks := ts } t)

/-- Recognizer for the terminal "close" notification. -/
def Ev.isClose : Ev → Bool
  | Ev.closeEv => true
  | _ => false

/-- Recognizer for the "error" notification. -/
def Ev.isError : Ev → Bool
  | Ev.errorEv _ => true
  | _ => false

/-- Number of "close" notifications in an event log. -/
def closeCount (es : List Ev) : Nat := es.countP Ev.isClose

/-- Number of "error" notifications in an event log. -/
def errorCount (es : List Ev) : Nat := es.countP Ev.isError

/-- The default-constructed Duplex stream, used as a concrete instance. -/
def dflt : Duplex := Duplex.new {}

/- ### Helper lemmas -/

theorem drain_nil (k : Nat) (d : Duplex) (h : d.tasks = []) : drain k d = d := by
  cases k <;> simp [drain, h]

theorem closeCount_append_one (es : List Ev) (e : Ev) :
    closeCount (es ++ [e]) = closeCount es + (if Ev.isClose e then 1 else 0) := by
  simp [closeCount, List.countP_append, List.countP_cons]

theorem errorCount_append_one (es : List Ev) (e : Ev) :
    errorCount (es ++ [e]) = errorCount es + (if Ev.isError e then 1 else 0) := by
  simp [errorCount, List.countP_append, List.countP_cons]

theorem destroy_fresh (d : Duplex) (err : Option Err) (cb : Option Nat)
    (h₁ : d.r.destroyed = false) (h₂ : d.w.destroyed = false) :
    (destroy d err cb).r.destroyed = true ∧
    (destroy d err cb).w.destroyed = true ∧
    (destroy d err cb).tasks = d.tasks ++ [Task.destroyFinishT err] ∧
    (destroy d err cb).events = d.events ∧
    (destroy d err cb).w.emitClose = d.w.emitClose ∧
    (destroy d err cb).r.emitClose = d.r.emitClose ∧
    (destroy d err cb).w.errorEmitted = d.w.errorEmitted ∧
    (destroy d err cb).r.errorEmitted = d.r.errorEmitted := by
  cases err <;> cases cb <;> simp [destroy, h₁, h₂] <;> split_ifs <;> simp

theorem destroy_already (d : Duplex) (err : Option Err) (c : Nat)
    (h : d.w.destroyed = true ∨ d.r.destroyed = true) :
    destroy d err (some c) = { d with cbLog := d.cbLog ++ [(c, none)] } := by
  rcases h with h | h <;> simp [destroy, h]

theorem runTask_dfin (d : Duplex) (e : Option Err) :
    (runTask d (Task.destroyFinishT e)).tasks = d.tasks ∧
    (runTask d (Task.destroyFinishT e)).r.destroyed = d.r.destroyed ∧
    (runTask d (Task.destroyFinishT e)).w.destroyed = d.w.destroyed ∧
    closeCount (runTask d (Task.destroyFinishT e)).events ≤ closeCount d.events + 1 ∧
    errorCount (runTask d (Task.destroyFinishT e)).events ≤ errorCount d.events + 1 := by
  cases e <;> simp only [runTask, emit] <;> split_ifs <;>
    simp [closeCount, errorCount, List.countP_append, List.countP_cons, Ev.isClose, Ev.isError]

/- ### Lemmas about `endAfterCork` -/

theorem endAfterCork_corked (d : Duplex) (cb : Option Nat) :
    (endAfterCork d cb).w.corked = d.w.corked := by
  cases cb <;> simp only [endAfterCork, finishMaybe] <;> split_ifs <;> simp

theorem endAfterCork_finished (d : Duplex) (c : Nat)
    (hf : d.w.finished = true) (he : d.w.ending = true) :
    endAfterCork d (some c) =
      { d with tasks := d.tasks ++ [Task.callCb c (some Err.streamAlreadyFinished)] } := by
  simp [endAfterCork, hf, he]

theorem endAfterCork_destroyed (d : Duplex) (c : Nat)
    (hd : d.w.destroyed = true) (hf : d.w.finished = false)
    (he : d.w.errored ≠ none ∨ d.w.ending = true) :
    endAfterCork d (some c) =
      { d with tasks := d.tasks ++ [Task.callCb c (some Err.streamDestroyed)] } := by
  rcases he with he | he <;> simp [endAfterCork, hd, hf, he]

theorem uncork_one_corked (d : Duplex) (h : d.w.corked = 1) :
    (uncork d).w.corked = 0 := by
  simp only [uncork, clearBuffer, h]
  split_ifs <;> simp_all

/- ### Claim theorems -/

/-- C7: attaching a "data" listener while `flowing` is not `false` switches
the stream toward flowing mode (`flowing` becomes `true`), and attaching a
"readable" listener while "end" has not been emitted and no "readable"
listener was registered switches to paused pull mode: `flowing` becomes
`false` and `needReadable` becomes `true`. -/
theorem c7_listener_modes (d e : Duplex)
    (hd : d.r.flowing ≠ some false)
    (h1 : e.r.endEmitted = false) (h2 : e.r.readableListening = false) :
    (onEvent d EvName.data).r.flowing = some true ∧
    (onEvent e EvName.readable).r.flowing = some false ∧
    (onEvent e EvName.readable).r.needReadable = true := by
  refine ⟨?_, ?_, ?_⟩
  · simp only [onEvent, resume]
    simp [hd]
    split_ifs with hf <;> simp_all
  · simp only [onEvent, emitReadable]
    simp [h1, h2]
    split_ifs <;> simp
  · simp only [onEvent, emitReadable]
    simp [h1, h2]
    split_ifs <;> simp

/-- C7 witness: on the default stream (where `flowing` is `null`, "end" has
not been emitted and no "readable" listener exists) both mode toggles are
observable. -/
theorem c7_witness :
    dflt.r.flowing ≠ some false ∧ dflt.r.endEmitted = false ∧
    dflt.r.readableListening = false ∧
    (onEvent dflt EvName.data).r.flowing = some true ∧
    (onEvent dflt EvName.readable).r.flowing = some false ∧
    (onEvent dflt EvName.readable).r.needReadable = true := by
  refine ⟨by decide, by decide, by decide, ?_⟩
  exact c7_listener_modes dflt dflt (by decide) (by decide) (by decide)

/-- C9: when `end()` is called on a stream whose cork depth is positive, it
forces the cork counter to exactly 1 and performs one uncork, so the cork
depth after `end()` is 0 no matter how deep the corking was. -/
theorem c9_end_uncorks (d : Duplex) (cb : Option Nat)
    (h : d.w.corked > 0) :
    (endStream d none cb).w.corked = 0 := by
  simp only [endStream]
  rw [if_pos h, endAfterCork_corked]
  exact uncork_one_corked _ rfl

/-- C9 witness: corking the default stream three times and then calling
`end()` leaves cork depth 0. -/
theorem c9_witness :
    (cork (cork (cork dflt))).w.corked = 3 ∧
    (endStream (cork (cork (cork dflt))) none none).w.corked = 0 := by
  refine ⟨by decide, ?_⟩
  exact c9_end_uncorks (cork (cork (cork dflt))) none (by decide)

/-- C8: a Duplex constructed with `writable: false` starts with `ending`,
`ended` and `finished` already `true` on the writable side, its `writable`
getter reports `false` from construction, and the very first `end()` call
already delivers the "already finished" error to its callback
(asynchronously, on the microtask queue). -/
theorem c8_writable_false (o : DuplexOptions) (c : Nat)
    (h : o.writable = some false) :
    (Duplex.new o).w.ending = true ∧ (Duplex.new o).w.ended = true ∧
    (Duplex.new o).w.finished = true ∧ writableGetter (Duplex.new o) = false ∧
    (drain 1 (endStream (Duplex.new o) none (some c))).cbLog =
      [(c, some Err.streamAlreadyFinished)] := by
  have hw : (Duplex.new o).w =
      { WritableState.new o with
        writable := false, ending := true, ended := true, finished := true } ∧
      (Duplex.new o).cbLog = [] ∧ (Duplex.new o).tasks = [] := by
    simp only [Duplex.new, h]
    split_ifs <;> simp
  obtain ⟨hw1, hw2, hw3⟩ := hw
  refine ⟨by rw [hw1], by rw [hw1], by rw [hw1], ?_, ?_⟩
  · simp [writableGetter, hw1]
  · have hcork : (Duplex.new o).w.corked = 0 := by
      rw [hw1]; simp [WritableState.new]
    have hend : endStream (Duplex.new o) none (some c) =
        { Duplex.new o with
          tasks := (Duplex.new o).tasks ++ [Task.callCb c (some Err.streamAlreadyFinished)] } := by
      simp only [endStream]
      rw [if_neg (by simp [hcork])]
      exact endAfterCork_finished _ _ (by rw [hw1]) (by rw [hw1])
    rw [hend, hw3]
    simp [drain, runTask, hw2]

/-- C8 witness: the concrete stream constructed with `writable: false`. -/
theorem c8_witness :
    (Duplex.new { writable := some false }).w.finished = true ∧
    writableGetter (Duplex.new { writable := some false }) = false ∧
    (drain 1 (endStream (Duplex.new { writable := some false }) none (some 7))).cbLog =
      [(7, some Err.streamAlreadyFinished)] := by
  have h := c8_writable_false { writable := some false } 7 rfl
  exact ⟨h.2.2.1, h.2.2.2.1, h.2.2.2.2⟩

/- ### More destroy/drain lemmas -/

theorem drain_cons (k : Nat) (d : Duplex) (t : Task) (ts : List Task)
    (h : d.tasks = t :: ts) :
    drain (k + 1) d = drain k (runTask { d with tasks := ts } t) := by
  simp [drain, h]

theorem destroy_already_none (d : Duplex) (err : Option Err)
    (h : d.w.destroyed = true ∨ d.r.destroyed = true) :
    destroy d err none = d := by
  rcases h with h | h <;> simp [destroy, h]

theorem destroy_errored (d : Duplex) (e : Err) (cb : Option Nat)
    (h₁ : d.r.destroyed = false) (h₂ : d.w.destroyed = false)
    (h₅ : d.r.errored = d.w.errored) :
    (destroy d (some e) cb).w.errored = some (d.w.errored.getD e) ∧
    (destroy d (some e) cb).r.errored = some (d.w.errored.getD e) := by
  cases cb <;> cases hw : d.w.errored <;>
    simp [destroy, h₁, h₂, h₅, hw]

/-- C1: `destroy` is idempotent with a single terminal close.  One
`destroy(err, cb₁)` call sets both sides' `destroyed` flags; whatever suffix
of the microtask queue has run since, a second `destroy(err₂, cb₂)` call
changes nothing at all except that it invokes `cb₂` with no error argument;
and over the whole double-destroy trace at most one "close" notification is
ever emitted. -/
theorem c1_destroy_idempotent (d : Duplex) (err err2 : Option Err) (c₁ c₂ k k' : Nat)
    (h₁ : d.r.destroyed = false) (h₂ : d.w.destroyed = false)
    (h₃ : d.tasks = []) (h₄ : closeCount d.events = 0) :
    (destroy d err (some c₁)).r.destroyed = true ∧
    (destroy d err (some c₁)).w.destroyed = true ∧
    destroy (drain k (destroy d err (some c₁))) err2 (some c₂) =
      { drain k (destroy d err (some c₁)) with
        cbLog := (drain k (destroy d err (some c₁))).cbLog ++ [(c₂, none)] } ∧
    closeCount
      (drain k' (destroy (drain k (destroy d err (some c₁))) err2 (some c₂))).events ≤ 1 := by
  obtain ⟨ha1, ha2, ha3, ha4, _, _, _, _⟩ := destroy_fresh d err (some c₁) h₁ h₂
  set A := destroy d err (some c₁) with hA
  have hAt : A.tasks = [Task.destroyFinishT err] := by rw [ha3, h₃]; rfl
  have hAc : closeCount A.events = 0 := by rw [ha4, h₄]
  refine ⟨ha1, ha2, ?_⟩
  cases k with
  | zero =>
    have hB : drain 0 A = A := rfl
    rw [hB]
    have hC : destroy A err2 (some c₂) = { A with cbLog := A.cbLog ++ [(c₂, none)] } :=
      destroy_already A err2 c₂ (Or.inl ha2)
    refine ⟨hC, ?_⟩
    rw [hC]
    have hCt : ({ A with cbLog := A.cbLog ++ [(c₂, none)] } : Duplex).tasks =
        Task.destroyFinishT err :: [] := by simpa using hAt
    cases k' with
    | zero => simpa [drain] using le_of_eq hAc |>.trans (by norm_num)
    | succ k0 =>
      rw [drain_cons k0 _ _ _ hCt]
      set R := runTask { ({ A with cbLog := A.cbLog ++ [(c₂, none)] } : Duplex) with
        tasks := ([] : List Task) } (Task.destroyFinishT err) with hR
      obtain ⟨hr1, _, _, hr4, _⟩ := runTask_dfin ({ ({ A with cbLog := A.cbLog ++ [(c₂, none)] } : Duplex) with tasks := ([] : List Task) }) err
      rw [drain_nil k0 R (by rw [hR, hr1])]
      refine hr4.trans ?_
      simpa using le_of_eq hAc
  | succ k0 =>
    rw [drain_cons k0 A _ _ hAt]
    set R := runTask { A with tasks := ([] : List Task) } (Task.destroyFinishT err) with hR
    obtain ⟨hr1, _, hr3, hr4, _⟩ := runTask_dfin { A with tasks := ([] : List Task) } err
    have hRt : R.tasks = [] := by rw [hR, hr1]
    have hRd : R.w.destroyed = true := by rw [hR, hr3]; exact ha2
    rw [drain_nil k0 R hRt]
    have hC : destroy R err2 (some c₂) = { R with cbLog := R.cbLog ++ [(c₂, none)] } :=
      destroy_already R err2 c₂ (Or.inl hRd)
    refine ⟨hC, ?_⟩
    rw [hC, drain_nil k' _ (by simpa using hRt)]
    have : closeCount R.events ≤ 1 := by
      refine (hR ▸ hr4).trans ?_
      simpa using le_of_eq hAc
    simpa using this

/-- C1 witness: the double destroy of the default stream, with the microtask
queue drained in between. -/
theorem c1_witness :
    (destroy dflt none (some 0)).r.destroyed = true ∧
    (destroy dflt none (some 0)).w.destroyed = true ∧
    destroy (drain 2 (destroy dflt none (some 0))) (some (Err.userError 1)) (some 1) =
      { drain 2 (destroy dflt none (some 0)) with
        cbLog := (drain 2 (destroy dflt none (some 0))).cbLog ++ [(1, none)] } ∧
    closeCount
      (drain 2 (destroy (drain 2 (destroy dflt none (some 0))) (some (Err.userError 1))
        (some 1))).events ≤ 1 :=
  c1_destroy_idempotent dflt none (some (Err.userError 1)) 0 1 2 2
    (by decide) (by decide) (by decide) (by decide)

/-- C2: a non-null error passed to `destroy(err)` is recorded on each side
whose `errored` field is still null, after which both sides' `errored`
fields agree; and across the whole trace — even with a second independent
`destroy(err₂)` call — at most one "error" notification is emitted. -/
theorem c2_error_record_dedup (d : Duplex) (e₁ e₂ : Err) (k k' : Nat)
    (h₁ : d.r.destroyed = false) (h₂ : d.w.destroyed = false)
    (h₃ : d.tasks = []) (h₄ : errorCount d.events = 0)
    (h₅ : d.r.errored = d.w.errored) :
    (destroy d (some e₁) none).w.errored = some (d.w.errored.getD e₁) ∧
    (destroy d (some e₁) none).r.errored = (destroy d (some e₁) none).w.errored ∧
    errorCount
      (drain k' (destroy (drain k (destroy d (some e₁) none)) (some e₂) none)).events ≤ 1 := by
  obtain ⟨he1, he2⟩ := destroy_errored d e₁ none h₁ h₂ h₅
  obtain ⟨ha1, ha2, ha3, ha4, _, _, _, _⟩ := destroy_fresh d (some e₁) none h₁ h₂
  set A := destroy d (some e₁) none with hA
  have hAt : A.tasks = [Task.destroyFinishT (some e₁)] := by rw [ha3, h₃]; rfl
  have hAe : errorCount A.events = 0 := by rw [ha4, h₄]
  refine ⟨he1, by rw [he1, he2], ?_⟩
  cases k with
  | zero =>
    have hB : drain 0 A = A := rfl
    rw [hB, destroy_already_none A (some e₂) (Or.inl ha2)]
    cases k' with
    | zero => simpa [drain] using le_of_eq hAe |>.trans (by norm_num)
    | succ k0 =>
      rw [drain_cons k0 A _ _ hAt]
      set R := runTask { A with tasks := ([] : List Task) } (Task.destroyFinishT (some e₁)) with hR
      obtain ⟨hr1, _, _, _, hr5⟩ := runTask_dfin { A with tasks := ([] : List Task) } (some e₁)
      rw [drain_nil k0 R (by rw [hR, hr1])]
      refine (hR ▸ hr5).trans ?_
      simpa using le_of_eq hAe
  | succ k0 =>
    rw [drain_cons k0 A _ _ hAt]
    set R := runTask { A with tasks := ([] : List Task) } (Task.destroyFinishT (some e₁)) with hR
    obtain ⟨hr1, _, hr3, _, hr5⟩ := runTask_dfin { A with tasks := ([] : List Task) } (some e₁)
    have hRt : R.tasks = [] := by rw [hR, hr1]
    have hRd : R.w.destroyed = true := by rw [hR, hr3]; exact ha2
    rw [drain_nil k0 R hRt, destroy_already_none R (some e₂) (Or.inl hRd),
      drain_nil k' R hRt]
    refine (hR ▸ hr5).trans ?_
    simpa using le_of_eq hAe

/-- C2 witness: destroying the default stream with an error records it on
both sides, and the double-destroy trace emits exactly the one deduplicated
"error" notification. -/
theorem c2_witness :
    (destroy dflt (some (Err.userError 5)) none).w.errored = some (Err.userError 5) ∧
    (destroy dflt (some (Err.userError 5)) none).r.errored =
      (destroy dflt (some (Err.userError 5)) none).w.errored ∧
    errorCount
      (drain 3 (destroy (drain 3 (destroy dflt (some (Err.userError 5)) none))
        (some (Err.userError 6)) none)).events ≤ 1 :=
  c2_error_record_dedup dflt (Err.userError 5) (Err.userError 6) 3 3
    (by decide) (by decide) (by decide) (by decide) (by decide)

/- ### Preservation lemmas for the read path -/

theorem endDuplex_events (d : Duplex) : (endDuplex d).events = d.events := by
  simp only [endDuplex]; split_ifs <;> simp

theorem endDuplex_w (d : Duplex) : (endDuplex d).w = d.w := by
  simp only [endDuplex]; split_ifs <;> simp

theorem endDuplex_rHwm (d : Duplex) :
    (endDuplex d).r.highWaterMark = d.r.highWaterMark := by
  simp only [endDuplex]; split_ifs <;> simp

theorem endDuplex_rErrorEmitted (d : Duplex) :
    (endDuplex d).r.errorEmitted = d.r.errorEmitted := by
  simp only [endDuplex]; split_ifs <;> simp

theorem endDuplex_rCloseEmitted (d : Duplex) :
    (endDuplex d).r.closeEmitted = d.r.closeEmitted := by
  simp only [endDuplex]; split_ifs <;> simp

theorem endDuplex_rDataEmitted (d : Duplex) :
    (endDuplex d).r.dataEmitted = d.r.dataEmitted := by
  simp only [endDuplex]; split_ifs <;> simp

theorem emitReadable_events (d : Duplex) : (emitReadable d).events = d.events := by
  simp only [emitReadable]; split_ifs <;> simp

theorem emitReadable_w (d : Duplex) : (emitReadable d).w = d.w := by
  simp only [emitReadable]; split_ifs <;> simp

theorem emitReadable_rHwm (d : Duplex) :
    (emitReadable d).r.highWaterMark = d.r.highWaterMark := by
  simp only [emitReadable]; split_ifs <;> simp

theorem fromList_hwm (n : Nat) (s : ReadableState) :
    (fromList n s).2.highWaterMark = s.highWaterMark := by
  simp only [fromList]; split_ifs <;> simp

theorem readDoReadStep_hwm (state : ReadableState) (nOrig : Option Nat) (n : Nat) :
    (readDoReadStep state nOrig n).1.highWaterMark = state.highWaterMark := by
  simp only [readDoReadStep, fillNoop]; split_ifs <;> simp

theorem readConsume_rHwm (d0 : Duplex) (n? : Option Nat) (s1 : ReadableState) (n1 : Nat) :
    (readConsume d0 n? s1 n1).1.r.highWaterMark = s1.highWaterMark := by
  simp only [readConsume]
  rcases hP : (if n1 > 0 then fromList n1 s1 else (none, s1)) with ⟨ret, s2⟩
  have hs2 : s2.highWaterMark = s1.highWaterMark := by
    by_cases h : n1 > 0
    · rw [if_pos h] at hP
      have hfl := fromList_hwm n1 s1
      rw [hP] at hfl
      exact hfl
    · rw [if_neg h] at hP
      cases hP
      rfl
  cases ret <;> simp only <;> split_ifs <;> simp [endDuplex_rHwm, emit, hs2]

theorem readAfterHwm_rHwm (d : Duplex) (n? : Option Nat) :
    (readAfterHwm d n?).1.r.highWaterMark = d.r.highWaterMark := by
  simp only [readAfterHwm]
  split_ifs <;>
    simp [endDuplex_rHwm, emitReadable_rHwm, readConsume_rHwm, readDoReadStep_hwm]

theorem read_rHwm (d : Duplex) (n? : Option Nat) :
    (read d n?).1.r.highWaterMark = (readHwmStep d.r n?).highWaterMark := by
  simp only [read]
  split_ifs <;> rw [readAfterHwm_rHwm]

/-- C5: a `read(n)` request above the current readable high-water mark
raises the mark to the next power-of-two-like step admitting `n`
(`computeNewHighWaterMark n`, a power of two at least `n`), and no `read`
call ever decreases the mark. -/
theorem c5_hwm_growth (d : Duplex) (n? : Option Nat) :
    d.r.highWaterMark ≤ (read d n?).1.r.highWaterMark ∧
    (∀ n, n? = some n → d.r.highWaterMark < n →
      (read d n?).1.r.highWaterMark = computeNewHighWaterMark n ∧
      n ≤ (read d n?).1.r.highWaterMark ∧
      ∃ j, (read d n?).1.r.highWaterMark = 2 ^ j) := by
  rw [read_rHwm]
  constructor
  · cases n? with
    | none => simp [readHwmStep]
    | some n =>
      simp only [readHwmStep]
      split_ifs with h
      · exact le_trans (le_of_lt h) (Nat.le_pow_clog (by norm_num) n)
      · exact le_refl _
  · intro n hn hlt
    subst hn
    simp only [readHwmStep, if_pos hlt]
    exact ⟨trivial, Nat.le_pow_clog (by norm_num) n, Nat.clog 2 n, rfl⟩

/-- C5 witness: a request of 40000 bytes against the default 16384-byte mark
raises the mark to `computeNewHighWaterMark 40000`, which admits the
request. -/
theorem c5_witness :
    dflt.r.highWaterMark = 16384 ∧
    (read dflt (some 40000)).1.r.highWaterMark = computeNewHighWaterMark 40000 ∧
    40000 ≤ (read dflt (some 40000)).1.r.highWaterMark := by
  have h := (c5_hwm_growth dflt (some 40000)).2 40000 rfl (by decide)
  exact ⟨by decide, h.1, h.2.1⟩

/- ### Field-preservation lemmas for the read stages -/

theorem fromList_errorEmitted (n : Nat) (s : ReadableState) :
    (fromList n s).2.errorEmitted = s.errorEmitted := by
  simp only [fromList]; split_ifs <;> simp

theorem fromList_closeEmitted (n : Nat) (s : ReadableState) :
    (fromList n s).2.closeEmitted = s.closeEmitted := by
  simp only [fromList]; split_ifs <;> simp

theorem readDoReadStep_snd (state : ReadableState) (nOrig : Option Nat) (n : Nat) :
    (readDoReadStep state nOrig n).2 = n := by
  simp only [readDoReadStep, fillNoop]
  split_ifs <;> try rfl
  all_goals exact absurd rfl (by assumption)

theorem readDoReadStep_pres (state : ReadableState) (nOrig : Option Nat) (n : Nat) :
    (readDoReadStep state nOrig n).1.buffer = state.buffer ∧
    (readDoReadStep state nOrig n).1.objectMode = state.objectMode ∧
    (readDoReadStep state nOrig n).1.length = state.length ∧
    (readDoReadStep state nOrig n).1.ended = state.ended ∧
    (readDoReadStep state nOrig n).1.errorEmitted = state.errorEmitted ∧
    (readDoReadStep state nOrig n).1.closeEmitted = state.closeEmitted := by
  simp only [readDoReadStep, fillNoop]; split_ifs <;> simp

theorem readHwmStep_fields (s : ReadableState) (n? : Option Nat) :
    (readHwmStep s n?).ended = s.ended ∧ (readHwmStep s n?).length = s.length ∧
    (readHwmStep s n?).buffer = s.buffer ∧ (readHwmStep s n?).objectMode = s.objectMode ∧
    (readHwmStep s n?).errorEmitted = s.errorEmitted ∧
    (readHwmStep s n?).closeEmitted = s.closeEmitted ∧
    (readHwmStep s n?).endEmitted = s.endEmitted := by
  cases n? with
  | none => simp [readHwmStep]
  | some n => simp only [readHwmStep]; split_ifs <;> simp

theorem readConsume_snd (d0 : Duplex) (n? : Option Nat) (s1 : ReadableState) (n1 : Nat) :
    (readConsume d0 n? s1 n1).2 = (if n1 > 0 then fromList n1 s1 else (none, s1)).1 :=
  rfl

theorem fromList_fst_bytes (n : Nat) (s : ReadableState)
    (hb : s.buffer ≠ []) (ho : s.objectMode = false) :
    (fromList n s).1 = some (s.buffer.flatten.take n) := by
  simp [fromList, hb, ho]

/- ### C10: every successful pull also notifies "data" -/

theorem readConsume_data (d0 : Duplex) (n? : Option Nat) (s1 : ReadableState) (n1 : Nat)
    (c : Chunk)
    (h₁ : s1.errorEmitted = false) (h₂ : s1.closeEmitted = false)
    (h₃ : (readConsume d0 n? s1 n1).2 = some c) :
    (readConsume d0 n? s1 n1).1.events = d0.events ++ [Ev.dataEv c] ∧
    (readConsume d0 n? s1 n1).1.r.dataEmitted = true := by
  simp only [readConsume] at h₃ ⊢
  rcases hP : (if n1 > 0 then fromList n1 s1 else (none, s1)) with ⟨ret, s2⟩
  rw [hP] at h₃
  simp only at h₃
  subst h₃
  have hs : s2.errorEmitted = false ∧ s2.closeEmitted = false := by
    by_cases h : n1 > 0
    · rw [if_pos h] at hP
      constructor
      · have hq := fromList_errorEmitted n1 s1
        rw [hP] at hq
        simpa [h₁] using hq
      · have hq := fromList_closeEmitted n1 s1
        rw [hP] at hq
        simpa [h₂] using hq
    · rw [if_neg h] at hP
      simp at hP
  obtain ⟨hsE, hsC⟩ := hs
  split_ifs <;>
    simp_all [emit, endDuplex_events, endDuplex_rErrorEmitted, endDuplex_rCloseEmitted,
      endDuplex_rDataEmitted]

theorem readAfterHwm_data (d : Duplex) (n? : Option Nat) (c : Chunk)
    (h₁ : d.r.errorEmitted = false) (h₂ : d.r.closeEmitted = false)
    (h₃ : (readAfterHwm d n?).2 = some c) :
    (readAfterHwm d n?).1.events = d.events ++ [Ev.dataEv c] ∧
    (readAfterHwm d n?).1.r.dataEmitted = true := by
  simp only [readAfterHwm] at h₃ ⊢
  have hp1 : (readDoReadStep d.r n? (howMuchToRead n? d.r)).1.errorEmitted = false := by
    rw [(readDoReadStep_pres d.r n? (howMuchToRead n? d.r)).2.2.2.2.1]; exact h₁
  have hp2 : (readDoReadStep d.r n? (howMuchToRead n? d.r)).1.closeEmitted = false := by
    rw [(readDoReadStep_pres d.r n? (howMuchToRead n? d.r)).2.2.2.2.2]; exact h₂
  split_ifs at h₃ ⊢ <;> try simp at h₃
  all_goals exact readConsume_data d n? _ _ c hp1 hp2 h₃

/-- C10: whenever `read(n)` returns a non-null chunk and neither an "error"
nor a "close" notification has been emitted, the same chunk is emitted
synchronously as a "data" notification (the only event appended by the
call) and the `dataEmitted` flag is set. -/
theorem c10_pull_notifies_data (d : Duplex) (n? : Option Nat) (c : Chunk)
    (h₁ : d.r.errorEmitted = false) (h₂ : d.r.closeEmitted = false)
    (h₃ : (read d n?).2 = some c) :
    (read d n?).1.events = d.events ++ [Ev.dataEv c] ∧
    (read d n?).1.r.dataEmitted = true := by
  obtain ⟨_, _, _, _, hEE, hCE, _⟩ := readHwmStep_fields d.r n?
  simp only [read] at h₃ ⊢
  split_ifs at h₃ ⊢ <;>
    exact readAfterHwm_data _ n? c (by simpa [hEE] using h₁) (by simpa [hCE] using h₂) h₃

/-- C10 witness: pulling one byte from a stream holding "ab" returns "a",
appends exactly the "data" notification for it and sets `dataEmitted`. -/
theorem c10_witness :
    (read (push (Duplex.new {}) (some [97, 98])).1 (some 1)).2 = some [97] ∧
    (read (push (Duplex.new {}) (some [97, 98])).1 (some 1)).1.events =
      (push (Duplex.new {}) (some [97, 98])).1.events ++ [Ev.dataEv [97]] ∧
    (read (push (Duplex.new {}) (some [97, 98])).1 (some 1)).1.r.dataEmitted = true := by
  refine ⟨by decide, ?_⟩
  exact c10_pull_notifies_data _ (some 1) [97] (by decide) (by decide) (by decide)

/- ### C6: when read returns null vs data -/

theorem readAfterHwm_ended_empty (d : Duplex) (n? : Option Nat)
    (he : d.r.ended = true) (hl : d.r.length = 0) :
    (readAfterHwm d n?).2 = none := by
  have hn : howMuchToRead n? d.r = 0 := by
    cases n? <;> simp [howMuchToRead, hl, he]
  simp only [readAfterHwm]
  split_ifs <;> simp_all [hn]

theorem readAfterHwm_full (d : Duplex) (n : Nat)
    (ho : d.r.objectMode = false) (h1 : 1 ≤ n) (h2 : n ≤ d.r.length)
    (hlen : d.r.length = d.r.buffer.flatten.length) :
    (readAfterHwm d (some n)).2 = some (d.r.buffer.flatten.take n) := by
  have hl0 : d.r.length ≠ 0 := by omega
  have hb : d.r.buffer ≠ [] := by
    intro hbe
    rw [hbe] at hlen
    simp at hlen
    exact hl0 hlen
  have hc1 : ¬(n = 0 ∨ (d.r.length = 0 ∧ d.r.ended = true)) := by
    rintro (h | ⟨h, _⟩)
    · omega
    · exact hl0 h
  have hn : howMuchToRead (some n) d.r = n := by
    simp only [howMuchToRead]
    rw [if_neg hc1, if_neg (by simp [ho]), if_pos h2]
  obtain ⟨hBuf, hO, _, _, _, _⟩ := readDoReadStep_pres d.r (some n) n
  simp only [readAfterHwm, hn]
  rw [if_neg (by rintro ⟨h, -⟩; simp at h; omega)]
  rw [if_neg (by rintro ⟨h, -⟩; omega)]
  rw [readConsume_snd, readDoReadStep_snd, if_pos (by omega)]
  rw [fromList_fst_bytes n _ (by rw [hBuf]; exact hb) (by rw [hO]; exact ho), hBuf]

theorem readAfterHwm_ended_rest (d : Duplex) (n : Nat)
    (ho : d.r.objectMode = false) (he : d.r.ended = true)
    (hgt : d.r.length < n) (hpos : 0 < d.r.length)
    (hlen : d.r.length = d.r.buffer.flatten.length) :
    (readAfterHwm d (some n)).2 = some d.r.buffer.flatten := by
  have hl0 : d.r.length ≠ 0 := by omega
  have hb : d.r.buffer ≠ [] := by
    intro hbe
    rw [hbe] at hlen
    simp at hlen
    exact hl0 hlen
  have hc1 : ¬(n = 0 ∨ (d.r.length = 0 ∧ d.r.ended = true)) := by
    rintro (h | ⟨h, _⟩)
    · omega
    · exact hl0 h
  have hn : howMuchToRead (some n) d.r = d.r.length := by
    simp only [howMuchToRead]
    rw [if_neg hc1, if_neg (by simp [ho]), if_neg (by omega), if_pos he]
  obtain ⟨hBuf, hO, _, _, _, _⟩ := readDoReadStep_pres d.r (some n) d.r.length
  simp only [readAfterHwm, hn]
  rw [if_neg (by rintro ⟨h, -⟩; simp at h; omega)]
  rw [if_neg (by rintro ⟨h, -⟩; omega)]
  rw [readConsume_snd, readDoReadStep_snd, if_pos (by omega)]
  rw [fromList_fst_bytes _ _ (by rw [hBuf]; exact hb) (by rw [hO]; exact ho), hBuf]
  rw [hlen, List.take_length]

theorem readAfterHwm_insufficient (d : Duplex) (n : Nat)
    (ho : d.r.objectMode = false) (hne : d.r.ended = false)
    (hgt : d.r.length < n) :
    (readAfterHwm d (some n)).2 = none := by
  have hc1 : ¬(n = 0 ∨ (d.r.length = 0 ∧ d.r.ended = true)) := by
    rintro (h | ⟨_, h⟩)
    · omega
    · rw [hne] at h; exact Bool.false_ne_true h
  have hn : howMuchToRead (some n) d.r = 0 := by
    simp only [howMuchToRead]
    rw [if_neg hc1, if_neg (by simp [ho]), if_neg (by omega), if_neg (by simp [hne])]
  simp only [readAfterHwm, hn]
  rw [if_neg (by rintro ⟨h, -⟩; simp at h; omega)]
  rw [if_neg (by rintro ⟨-, h⟩; rw [hne] at h; exact Bool.false_ne_true h)]
  rw [readConsume_snd, readDoReadStep_snd, if_neg (by omega)]

/-- C6 (amended): `read(n)` returns `null` exactly at end-of-data with an
empty buffer (for every `n`); a byte-mode request that the buffer fully
covers returns exactly the first `n` buffered bytes; once the stream has
ended, a request exceeding the buffer returns all remaining buffered data;
but while the stream has NOT ended, a request exceeding the buffer returns
`null` and leaves the data buffered (rather than returning the partial
prefix). -/
theorem c6_read_null (dA : Duplex) (nA? : Option Nat) (dB : Duplex) (nB : Nat)
    (dC : Duplex) (nC : Nat) (dD : Duplex) (nD : Nat)
    (hA1 : dA.r.ended = true) (hA2 : dA.r.length = 0)
    (hB1 : dB.r.objectMode = false) (hB2 : 1 ≤ nB) (hB3 : nB ≤ dB.r.length)
    (hB4 : dB.r.length = dB.r.buffer.flatten.length)
    (hC1 : dC.r.objectMode = false) (hC2 : dC.r.ended = true)
    (hC3 : dC.r.length < nC) (hC4 : 0 < dC.r.length)
    (hC5 : dC.r.length = dC.r.buffer.flatten.length)
    (hD1 : dD.r.objectMode = false) (hD2 : dD.r.ended = false)
    (hD3 : dD.r.length < nD) :
    (read dA nA?).2 = none ∧
    (read dB (some nB)).2 = some (dB.r.buffer.flatten.take nB) ∧
    (read dC (some nC)).2 = some dC.r.buffer.flatten ∧
    (read dD (some nD)).2 = none := by
  refine ⟨?_, ?_, ?_, ?_⟩
  · obtain ⟨hE, hL, _, _, _, _⟩ := readHwmStep_fields dA.r nA?
    simp only [read]
    split_ifs <;>
      exact readAfterHwm_ended_empty _ nA? (by simpa [hE] using hA1) (by simpa [hL] using hA2)
  · obtain ⟨hE, hL, hBuf, hO, _, _⟩ := readHwmStep_fields dB.r (some nB)
    simp only [read]
    split_ifs with hsp
    · have h := readAfterHwm_full
        { dB with r := { readHwmStep dB.r (some nB) with emittedReadable := false } } nB
        (by simpa [hO] using hB1) hB2 (by simpa [hL] using hB3)
        (by simp [hL, hBuf, hB4])
      simpa [hBuf] using h
    · simp at hsp; omega
  · obtain ⟨hE, hL, hBuf, hO, _, _⟩ := readHwmStep_fields dC.r (some nC)
    simp only [read]
    split_ifs with hsp
    · have h := readAfterHwm_ended_rest
        { dC with r := { readHwmStep dC.r (some nC) with emittedReadable := false } } nC
        (by simpa [hO] using hC1) (by simpa [hE] using hC2) (by simpa [hL] using hC3)
        (by simpa [hL] using hC4) (by simp [hL, hBuf, hC5])
      simpa [hBuf] using h
    · simp at hsp; omega
  · obtain ⟨hE, hL, hBuf, hO, _, _⟩ := readHwmStep_fields dD.r (some nD)
    simp only [read]
    split_ifs with hsp
    · exact readAfterHwm_insufficient
        { dD with r := { readHwmStep dD.r (some nD) with emittedReadable := false } } nD
        (by simpa [hO] using hD1) (by simpa [hE] using hD2) (by simpa [hL] using hD3)
    · simp at hsp; omega

/-- C6 counterexample to the claim as stated: a stream buffering one byte
that has NOT ended can satisfy part of a two-byte request, yet `read(2)`
returns `null` (the data stays buffered) instead of the partial prefix. -/
theorem c6_counterexample :
    (push (Duplex.new {}) (some [97])).1.r.length = 1 ∧
    (push (Duplex.new {}) (some [97])).1.r.ended = false ∧
    (read (push (Duplex.new {}) (some [97])).1 (some 2)).2 = none := by
  refine ⟨by decide, by decide, by decide⟩

/-- C6 witness: the four amended behaviours on concrete streams — an ended
empty stream yields `null`; "ab" serves `read(1)` with "a"; an ended "ab"
stream serves `read(5)` with "ab"; a non-ended "ab" stream yields `null`
for `read(5)`. -/
theorem c6_witness :
    (read (push (Duplex.new {}) none).1 (some 5)).2 = none ∧
    (read (push (Duplex.new {}) (some [97, 98])).1 (some 1)).2 = some [97] ∧
    (read (push (push (Duplex.new {}) (some [97, 98])).1 none).1 (some 5)).2 =
      some [97, 98] ∧
    (read (push (Duplex.new {}) (some [97, 98])).1 (some 5)).2 = none := by
  have h := c6_read_null (push (Duplex.new {}) none).1 (some 5)
    (push (Duplex.new {}) (some [97, 98])).1 1
    (push (push (Duplex.new {}) (some [97, 98])).1 none).1 5
    (push (Duplex.new {}) (some [97, 98])).1 5
    (by decide) (by decide) (by decide) (by decide) (by decide) (by decide)
    (by decide) (by decide) (by decide) (by decide) (by decide) (by decide)
    (by decide) (by decide)
  obtain ⟨h1, h2, h3, h4⟩ := h
  exact ⟨h1, by simpa using h2, by simpa using h3, h4⟩

/- ### C3: end() misuse reporting -/

/-- C3 (amended): a second `end()` after the write side has finished
schedules the "already finished" error to that caller's callback and leaves
the entire stream state unchanged; an `end()` on a destroyed stream reports
the "destroyed" error to its callback precisely when the write side was
already ending (or had an error recorded) but had not finished — after a
plain `destroy()` with no error and no prior `end()`, a subsequent `end()`
instead takes the normal ending path and its callback receives no error. -/
theorem c3_end_misuse (d : Duplex) (c : Nat) (d2 : Duplex) (c2 : Nat)
    (ha1 : d.w.finished = true) (ha2 : d.w.ending = true) (ha3 : d.w.corked = 0)
    (hb1 : d2.w.destroyed = true) (hb2 : d2.w.finished = false)
    (hb3 : d2.w.errored ≠ none ∨ d2.w.ending = true) (hb4 : d2.w.corked = 0) :
    endStream d none (some c) =
      { d with tasks := d.tasks ++ [Task.callCb c (some Err.streamAlreadyFinished)] } ∧
    endStream d2 none (some c2) =
      { d2 with tasks := d2.tasks ++ [Task.callCb c2 (some Err.streamDestroyed)] } := by
  constructor
  · simp only [endStream]
    rw [if_neg (by simp [ha3])]
    exact endAfterCork_finished d c ha1 ha2
  · simp only [endStream]
    rw [if_neg (by simp [hb4])]
    exact endAfterCork_destroyed d2 c2 hb1 hb2 hb3

/-- C3 counterexample to the claim as stated: after a plain `destroy()`
(no error, no prior `end()`), a subsequent `end(cb)` does NOT report the
"destroyed" condition — once the microtask queue drains, the callback has
been invoked with no error argument. -/
theorem c3_counterexample :
    (destroy (Duplex.new {}) none none).w.destroyed = true ∧
    (drain 4 (endStream (destroy (Duplex.new {}) none none) none (some 0))).cbLog =
      [(0, none)] := by
  exact ⟨by decide, by decide⟩

/-- C3 witness: the "already finished" report on a stream whose write side
is finished, and the "destroyed" report on a stream destroyed while
ending. -/
theorem c3_witness :
    endStream (Duplex.new { writable := some false }) none (some 3) =
      { Duplex.new { writable := some false } with
        tasks := (Duplex.new { writable := some false }).tasks ++
          [Task.callCb 3 (some Err.streamAlreadyFinished)] } ∧
    endStream (destroy (endStream (Duplex.new {}) none none) none none) none (some 4) =
      { destroy (endStream (Duplex.new {}) none none) none none with
        tasks := (destroy (endStream (Duplex.new {}) none none) none none).tasks ++
          [Task.callCb 4 (some Err.streamDestroyed)] } := by
  exact c3_end_misuse (Duplex.new { writable := some false }) 3
    (destroy (endStream (Duplex.new {}) none none) none none) 4
    (by decide) (by decide) (by decide) (by decide) (by decide) (by decide) (by decide)

/- ### C4: asymmetric half-open coupling -/

theorem read_ended_empty (d : Duplex) (n : Nat)
    (he : d.r.ended = true) (hl : d.r.length = 0) (hee : d.r.endEmitted = false)
    (hn : 1 ≤ n) :
    read d (some n) =
      ({ d with
        r := { readHwmStep d.r (some n) with emittedReadable := false, ended := true }
        tasks := d.tasks ++ [Task.endReadableNT] }, none) := by
  obtain ⟨hE, hL, _, _, _, _, hEE⟩ := readHwmStep_fields d.r (some n)
  have hmr : howMuchToRead (some n)
      ({ readHwmStep d.r (some n) with emittedReadable := false }) = 0 := by
    simp [howMuchToRead, hL, hl, hE, he]
  simp only [read]
  rw [if_pos (show some n ≠ some 0 by simp; omega)]
  simp only [readAfterHwm]
  rw [if_neg (by rintro ⟨h, -⟩; simp at h; omega)]
  rw [if_pos ⟨hmr, by simp [hE, he]⟩]
  rw [if_pos (by simp [hL, hl])]
  simp [endDuplex, hEE, hee]

theorem endStream_fresh (d : Duplex)
    (h3 : d.w.errored = none) (h4 : d.w.ending = false) (hc : d.w.corked = 0)
    (hl : d.w.length = 0) (hp : d.w.pendingWrites = []) (hw : d.w.writing = false)
    (hf : d.w.finished = false) :
    endStream d none none =
      { d with
        w := { d.w with ending := true, ended := true }
        tasks := d.tasks ++ [Task.finishT] } := by
  simp only [endStream]
  rw [if_neg (by simp [hc])]
  simp only [endAfterCork, finishMaybe, needFinish]
  rw [if_pos ⟨h3, by simp [h4]⟩]
  rw [if_pos (by simp [hl, hp, h3, hf, hw])]

theorem runTask_finishT_pres (d : Duplex) :
    (runTask d Task.finishT).w.ending = d.w.ending ∧
    (runTask d Task.finishT).w.ended = d.w.ended ∧
    (runTask d Task.finishT).tasks = d.tasks ∧
    (runTask d Task.finishT).r = d.r := by
  simp only [runTask, emit]; split_ifs <;> simp

theorem runTask_wside (d : Duplex) (t : Task)
    (h : t = Task.finishT ∨ ∃ i e, t = Task.callCb i e) :
    (runTask d t).r = d.r ∧ (runTask d t).tasks = d.tasks := by
  rcases h with rfl | ⟨i, e, rfl⟩
  · exact ⟨(runTask_finishT_pres d).2.2.2, (runTask_finishT_pres d).2.2.1⟩
  · simp [runTask]

theorem drain_wside_r (k : Nat) :
    ∀ d : Duplex, (∀ t ∈ d.tasks, t = Task.finishT ∨ ∃ i e, t = Task.callCb i e) →
      (drain k d).r = d.r := by
  induction k with
  | zero => intro d _; rfl
  | succ k ih =>
    intro d h
    match ht : d.tasks with
    | [] => simp [drain, ht]
    | t :: ts =>
      rw [drain_cons k d t ts ht]
      have hmem : t = Task.finishT ∨ ∃ i e, t = Task.callCb i e := by
        apply h; rw [ht]; exact List.mem_cons_self t ts
      obtain ⟨hr, htk⟩ := runTask_wside { d with tasks := ts } t hmem
      rw [ih (runTask { d with tasks := ts } t) ?_, hr]
      intro u hu
      rw [htk] at hu
      apply h; rw [ht]; exact List.mem_cons_of_mem t hu

theorem write_r (d : Duplex) (c : Chunk) : (write d c).1.r = d.r := by
  simp only [write, clearBuffer]; split_ifs <;> simp

theorem write_tasks (d : Duplex) (c : Chunk) : (write d c).1.tasks = d.tasks := by
  simp only [write, clearBuffer]; split_ifs <;> simp

theorem uncork_r (d : Duplex) : (uncork d).r = d.r := by
  simp only [uncork, clearBuffer]; split_ifs <;> simp

theorem uncork_tasks (d : Duplex) : (uncork d).tasks = d.tasks := by
  simp only [uncork, clearBuffer]; split_ifs <;> simp

theorem endAfterCork_r (d : Duplex) (cb : Option Nat) : (endAfterCork d cb).r = d.r := by
  cases cb <;> simp only [endAfterCork, finishMaybe] <;> split_ifs <;> simp

theorem endAfterCork_tasks (d : Duplex) (cb : Option Nat) :
    ∀ t ∈ (endAfterCork d cb).tasks,
      t ∈ d.tasks ∨ t = Task.finishT ∨ ∃ i e, t = Task.callCb i e := by
  cases cb <;> simp only [endAfterCork, finishMaybe] <;> split_ifs <;> intro t htm <;>
    simp_all [List.mem_append] <;> tauto

theorem endStream_r (d : Duplex) (chunk : Option Chunk) (cb : Option Nat) :
    (endStream d chunk cb).r = d.r := by
  cases chunk with
  | none =>
    simp only [endStream]
    split_ifs with hc
    · rw [endAfterCork_r, uncork_r]
    · rw [endAfterCork_r]
  | some c =>
    simp only [endStream]
    split_ifs with hc
    · rw [endAfterCork_r, uncork_r]
      exact write_r d c
    · rw [endAfterCork_r]
      exact write_r d c

theorem endStream_tasks_wside (d : Duplex) (chunk : Option Chunk) (cb : Option Nat)
    (h : ∀ t ∈ d.tasks, t = Task.finishT ∨ ∃ i e, t = Task.callCb i e) :
    ∀ t ∈ (endStream d chunk cb).tasks,
      t = Task.finishT ∨ ∃ i e, t = Task.callCb i e := by
  intro t htm
  cases chunk with
  | none =>
    simp only [endStream] at htm
    by_cases hc : d.w.corked > 0
    · rw [if_pos hc] at htm
      rcases endAfterCork_tasks _ cb t htm with hmem | h2
      · rw [uncork_tasks] at hmem
        exact h t hmem
      · exact h2
    · rw [if_neg hc] at htm
      rcases endAfterCork_tasks _ cb t htm with hmem | h2
      · exact h t hmem
      · exact h2
  | some c =>
    simp only [endStream] at htm
    by_cases hc : (write d c).1.w.corked > 0
    · rw [if_pos hc] at htm
      rcases endAfterCork_tasks _ cb t htm with hmem | h2
      · rw [uncork_tasks] at hmem
        have hw := write_tasks d c
        rw [show ({ (write d c).1 with
            w := { (write d c).1.w with corked := 1 } } : Duplex).tasks =
          (write d c).1.tasks from rfl, hw] at hmem
        exact h t hmem
      · exact h2
    · rw [if_neg hc] at htm
      rcases endAfterCork_tasks _ cb t htm with hmem | h2
      · rw [write_tasks] at hmem
        exact h t hmem
      · exact h2

/-- C4: the half-open coupling is asymmetric.  On a stream with
`allowHalfOpen = false`, observing end-of-read through `read()` triggers an
automatic `end()` of the write side (it becomes ending and ended); with
`allowHalfOpen = true` the same observation leaves the writable state
untouched; and ending the write side never touches the readable state,
before or after the queued microtasks run. -/
theorem c4_half_open (d : Duplex)
    (hao : d.allowHalfOpen = false) (hre : d.r.ended = true) (hrl : d.r.length = 0)
    (hree : d.r.endEmitted = false) (hwg : writableGetter d = true)
    (htasks : d.tasks = []) (hwc : d.w.corked = 0) (hwl : d.w.length = 0)
    (hwp : d.w.pendingWrites = []) (hww : d.w.writing = false)
    (hwf : d.w.finished = false)
    (d2 : Duplex)
    (hao2 : d2.allowHalfOpen = true) (hre2 : d2.r.ended = true) (hrl2 : d2.r.length = 0)
    (hree2 : d2.r.endEmitted = false) (htasks2 : d2.tasks = [])
    (d3 : Duplex) (cb : Option Nat) (k : Nat) (htasks3 : d3.tasks = []) :
    ((drain 4 (read d (some 1)).1).w.ending = true ∧
      (drain 4 (read d (some 1)).1).w.ended = true) ∧
    (drain 4 (read d2 (some 1)).1).w = d2.w ∧
    (drain k (endStream d3 none cb)).r = d3.r := by
  simp only [writableGetter, Bool.and_eq_true, beq_iff_eq, Bool.not_eq_true'] at hwg
  obtain ⟨⟨⟨⟨hw1, hw2⟩, hw3⟩, hw4⟩, hw5⟩ := hwg
  refine ⟨?_, ?_, ?_⟩
  · obtain ⟨hE, hL, _, _, _, _, hEE⟩ := readHwmStep_fields d.r (some 1)
    rw [read_ended_empty d 1 hre hrl hree (by omega)]
    rw [drain_cons 3 _ Task.endReadableNT [] (by simp [htasks])]
    simp only [runTask]
    rw [if_pos ⟨by simp [hEE, hree], by simp [hL, hrl]⟩]
    rw [if_pos (by simp [emit, hao, writableGetter, hw1, hw2, hw3, hw4, hw5])]
    rw [drain_cons 2 _ Task.endWritableNT [] (by simp [emit])]
    simp only [runTask]
    rw [if_pos (by simp [emit, writableGetter, hw1, hw2, hw3, hw4, hw5])]
    rw [endStream_fresh _ (by simp [emit, hw3]) (by simp [emit, hw4]) (by simp [emit, hwc])
      (by simp [emit, hwl]) (by simp [emit, hwp]) (by simp [emit, hww]) (by simp [emit, hwf])]
    rw [drain_cons 1 _ Task.finishT [] (by simp [emit])]
    rw [drain_nil 1 _ (by rw [(runTask_finishT_pres _).2.2.1])]
    constructor
    · rw [(runTask_finishT_pres _).1]
    · rw [(runTask_finishT_pres _).2.1]
  · obtain ⟨hE2, hL2, _, _, _, _, hEE2⟩ := readHwmStep_fields d2.r (some 1)
    rw [read_ended_empty d2 1 hre2 hrl2 hree2 (by omega)]
    rw [drain_cons 3 _ Task.endReadableNT [] (by simp [htasks2])]
    simp only [runTask]
    rw [if_pos ⟨by simp [hEE2, hree2], by simp [hL2, hrl2]⟩]
    rw [if_neg (by simp [emit, hao2])]
    rw [drain_nil 3 _ (by simp [emit])]
    simp [emit]
  · have hT := endStream_tasks_wside d3 none cb (by rw [htasks3]; intro t htm; simp at htm)
    rw [drain_wside_r k _ hT, endStream_r d3 none cb]

/-- C4 witness: on a freshly ended (EOF-pushed) stream with
`allowHalfOpen = false`, one `read()` plus the microtask queue ends the
write side; with the default `allowHalfOpen = true` the writable state is
untouched; and `end()` never touches the readable state. -/
theorem c4_witness :
    (drain 4 (read (push (Duplex.new { allowHalfOpen := some false }) none).1
      (some 1)).1).w.ending = true ∧
    (drain 4 (read (push (Duplex.new {}) none).1 (some 1)).1).w =
      (push (Duplex.new {}) none).1.w ∧
    (drain 3 (endStream (Duplex.new {}) none none)).r = (Duplex.new {}).r := by
  have h := c4_half_open (push (Duplex.new { allowHalfOpen := some false }) none).1
    (by decide) (by decide) (by decide) (by decide) (by decide) (by decide) (by decide)
    (by decide) (by decide) (by decide) (by decide)
    (push (Duplex.new {}) none).1
    (by decide) (by decide) (by decide) (by decide) (by decide)
    (Duplex.new {}) none 3 (by decide)
  exact ⟨h.1.1, h.2.1, h.2.2⟩

end NodeStream
